import Mathlib

/-!
Verification of the SELD evaluation metrics implementation
(SELD_evaluation_metrics.py and the segmentation helpers in test_metrics.py).

The Python code is shallowly embedded: numpy floating-point values become real
numbers, Python dictionaries keyed by consecutive integers become lists indexed
by position, and operations that can raise a KeyError or a numpy shape error
return Option (none models the raised exception).
-/

/-! ## Block size computed in SELDMetrics.__init__

The constructor stores  int(seg_length_s / hop_length_s).  Python int() on a
float truncates toward zero; the division is modelled exactly over ℚ. -/

/-- Python int() applied to a (rational) number: truncation toward zero. -/
def pythonInt (q : ℚ) : ℤ :=
  if 0 ≤ q then ⌊q⌋ else ⌈q⌉

/-- The value stored in the private field for the block size by the
constructor of SELDMetrics. -/
def block_size (seg_length_s hop_length_s : ℚ) : ℤ :=
  pythonInt (seg_length_s / hop_length_s)

/-! ## Spherical geometry helpers -/

/-- numpy arctan2 on real numbers. -/
noncomputable def arctan2 (y x : ℝ) : ℝ :=
  if 0 < x then Real.arctan (y / x)
  else if x < 0 then
    (if 0 ≤ y then Real.arctan (y / x) + Real.pi else Real.arctan (y / x) - Real.pi)
  else
    (if 0 < y then Real.pi / 2 else if y < 0 then -(Real.pi / 2) else 0)

/-- distance_between_spherical_coordinates_rad: angular distance in degrees
between two spherical coordinates given in radians.  The clip mirrors
np.clip(dist, -1, 1). -/
noncomputable def distance_between_spherical_coordinates_rad
    (az1 ele1 az2 ele2 : ℝ) : ℝ :=
  let dist := Real.sin ele1 * Real.sin ele2 +
    Real.cos ele1 * Real.cos ele2 * Real.cos |az1 - az2|
  let clipped := min (max dist (-1)) 1
  Real.arccos clipped * 180 / Real.pi

/-- sph2cart: spherical (radians) to cartesian coordinates. -/
noncomputable def sph2cart (azimuth elevation r : ℝ) : ℝ × ℝ × ℝ :=
  (r * Real.cos elevation * Real.cos azimuth,
   r * Real.cos elevation * Real.sin azimuth,
   r * Real.sin elevation)

/-- cart2sph: cartesian to spherical coordinates (radians). -/
noncomputable def cart2sph (x y z : ℝ) : ℝ × ℝ × ℝ :=
  (arctan2 y x, arctan2 z (Real.sqrt (x ^ 2 + y ^ 2)),
   Real.sqrt (x ^ 2 + y ^ 2 + z ^ 2))

/-- np.mean of a list of reals (the embedded lists are nonempty whenever the
Python code takes a mean). -/
noncomputable def npMean (l : List ℝ) : ℝ := l.sum / l.length

/-! ## Data model of the segment structures consumed by update

A ground-truth track is the triple [ind_list, azi_list, ele_list] built by
segment_gt_labels: within-block frame offsets with parallel azimuth/elevation
lists in degrees (the lists always have equal length by construction).
A prediction track is the pair [keys, values] built by segment_pred_labels:
within-block frame offsets and, per offset, the list of (azimuth, elevation)
pairs detected at that offset. -/

structure Track where
  frames : List ℕ
  azi : List ℝ
  ele : List ℝ
deriving Inhabited

structure PredTrack where
  frames : List ℕ
  dirs : List (List (ℝ × ℝ))
deriving Inhabited

/-- One block of the ground-truth structure: class index to track list.
A class is present in the block exactly when its track list is nonempty
(the Python dictionaries only carry a key once a track is appended). -/
abbrev Block := ℕ → List Track

/-- One block of the prediction structure. -/
abbrev PredBlock := ℕ → List PredTrack

def emptyBlock : Block := fun _ => []

def emptyPredBlock : PredBlock := fun _ => []

/-- np.squeeze(np.array(values), 1) over the per-offset direction lists of a
prediction track: succeeds exactly when every offset carries a single
direction, otherwise numpy raises (modelled as none). -/
def squeezeDirs (dirs : List (List (ℝ × ℝ))) : Option (List (ℝ × ℝ)) :=
  dirs.mapM (fun l => match l with | [d] => some d | _ => none)

/-! ## Running statistics of SELDMetrics -/

structure SELDState where
  TP : ℕ
  FP : ℕ
  TN : ℕ
  FN : ℕ
  S : ℕ
  D : ℕ
  I : ℕ
  Nref : ℕ
  Nsys : ℕ
  total_DE : ℝ
  DE_TP : ℕ

/-- The zeroed statistics set up by the constructor of SELDMetrics. -/
noncomputable def initState : SELDState :=
  ⟨0, 0, 0, 0, 0, 0, 0, 0, 0, 0, 0⟩

/-- Total of the four confusion counters. -/
def confSum (s : SELDState) : ℕ := s.TP + s.FN + s.FP + s.TN

/-! ## The two intra-segment averaging policies -/

/-- The averaged-location distance of
update_average_location_in_segment_score, taking the azimuth/elevation lists
already converted to radians: means are taken in cartesian space and the
angular distance of the two mean directions is returned. -/
noncomputable def avgLocationDist
    (gt_azi_list gt_ele_list pred_azi_list pred_ele_list : List ℝ) : ℝ :=
  let gt_cart := List.zipWith (fun a e => sph2cart a e 1) gt_azi_list gt_ele_list
  let pred_cart := List.zipWith (fun a e => sph2cart a e 1) pred_azi_list pred_ele_list
  let g := cart2sph (npMean (gt_cart.map (·.1))) (npMean (gt_cart.map (·.2.1)))
    (npMean (gt_cart.map (·.2.2)))
  let p := cart2sph (npMean (pred_cart.map (·.1))) (npMean (pred_cart.map (·.2.1)))
    (npMean (pred_cart.map (·.2.2)))
  distance_between_spherical_coordinates_rad g.1 g.2.1 p.1 p.2.1

/-- The matching loop of update_average_spatial_error_in_segment_score:
enumerate the ground-truth offsets, and for every offset also present in the
prediction offsets add the framewise angular distance and count the match.
Indexing assumes the azimuth/elevation lists are parallel to the offset lists,
as the segment encoders guarantee. -/
noncomputable def spatialFold (gt_ind_list : List ℕ) (gt_azi gt_ele : List ℝ)
    (pred_ind_list : List ℕ) (pred_azi pred_ele : List ℝ) : ℝ × ℕ :=
  gt_ind_list.enum.foldl (fun acc p =>
    if p.2 ∈ pred_ind_list then
      let pred_ind := pred_ind_list.indexOf p.2
      (acc.1 + distance_between_spherical_coordinates_rad (gt_azi.getD p.1 0)
        (gt_ele.getD p.1 0) (pred_azi.getD pred_ind 0) (pred_ele.getD pred_ind 0),
       acc.2 + 1)
    else acc) (0, 0)

/-- The representative distance the averaged-location branch computes for a
ground-truth track and squeezed prediction directions in degrees. -/
noncomputable def classLocDist (gtT : Track) (pred_dirs : List (ℝ × ℝ)) : ℝ :=
  avgLocationDist (gtT.azi.map (· * Real.pi / 180)) (gtT.ele.map (· * Real.pi / 180))
    (pred_dirs.map (fun v => v.1 * Real.pi / 180))
    (pred_dirs.map (fun v => v.2 * Real.pi / 180))

/-- The (summed distance, match count) pair the averaged-spatial-error branch
computes for a ground-truth track and a prediction track. -/
noncomputable def classSpatialFold (gtT : Track) (predT : PredTrack)
    (pred_dirs : List (ℝ × ℝ)) : ℝ × ℕ :=
  spatialFold gtT.frames (gtT.azi.map (· * Real.pi / 180))
    (gtT.ele.map (· * Real.pi / 180)) predT.frames
    (pred_dirs.map (fun v => v.1 * Real.pi / 180))
    (pred_dirs.map (fun v => v.2 * Real.pi / 180))

/-! ## The per-class loop bodies of the two update methods

The accumulator carried through a block is (state, loc_FN, loc_FP).  The code
first counts Nref and Nsys, then classifies the (block, class) pair through
the four-way branch.  none models the numpy error raised when squeezing a
malformed prediction track. -/

noncomputable def classStepLoc (T : ℝ) (gtB : Block) (predB : PredBlock)
    (class_cnt : ℕ) (acc : SELDState × ℕ × ℕ) : Option (SELDState × ℕ × ℕ) :=
  let s := acc.1
  let locFN := acc.2.1
  let locFP := acc.2.2
  let s := { s with
    Nref := s.Nref + (if (gtB class_cnt).isEmpty then 0 else 1),
    Nsys := s.Nsys + (if (predB class_cnt).isEmpty then 0 else 1) }
  match gtB class_cnt, predB class_cnt with
  | gtT :: _, predT :: _ =>
    match squeezeDirs predT.dirs with
    | none => none
    | some pred_dirs =>
      let avg_spatial_dist := classLocDist gtT pred_dirs
      let s := { s with total_DE := s.total_DE + avg_spatial_dist,
                        DE_TP := s.DE_TP + 1 }
      if avg_spatial_dist ≤ T then some ({ s with TP := s.TP + 1 }, locFN, locFP)
      else some ({ s with FN := s.FN + 1 }, locFN + 1, locFP)
  | _ :: _, [] => some ({ s with FN := s.FN + 1 }, locFN + 1, locFP)
  | [], _ :: _ => some ({ s with FP := s.FP + 1 }, locFN, locFP + 1)
  | [], [] => some ({ s with TN := s.TN + 1 }, locFN, locFP)

noncomputable def classStepSpatial (T : ℝ) (gtB : Block) (predB : PredBlock)
    (class_cnt : ℕ) (acc : SELDState × ℕ × ℕ) : Option (SELDState × ℕ × ℕ) :=
  let s := acc.1
  let locFN := acc.2.1
  let locFP := acc.2.2
  let s := { s with
    Nref := s.Nref + (if (gtB class_cnt).isEmpty then 0 else 1),
    Nsys := s.Nsys + (if (predB class_cnt).isEmpty then 0 else 1) }
  match gtB class_cnt, predB class_cnt with
  | gtT :: _, predT :: _ =>
    match squeezeDirs predT.dirs with
    | none => none
    | some pred_dirs =>
      let total := classSpatialFold gtT predT pred_dirs
      if total.1 = 0 ∧ total.2 = 0 then
        some ({ s with FN := s.FN + 1 }, locFN + 1, locFP)
      else
        let avg_spatial_dist := total.1 / (total.2 : ℝ)
        let s := { s with total_DE := s.total_DE + avg_spatial_dist,
                          DE_TP := s.DE_TP + 1 }
        if avg_spatial_dist ≤ T then some ({ s with TP := s.TP + 1 }, locFN, locFP)
        else some ({ s with FN := s.FN + 1 }, locFN + 1, locFP)
  | _ :: _, [] => some ({ s with FN := s.FN + 1 }, locFN + 1, locFP)
  | [], _ :: _ => some ({ s with FP := s.FP + 1 }, locFN, locFP + 1)
  | [], [] => some ({ s with TN := s.TN + 1 }, locFN, locFP)

/-! ## The per-block loop bodies and the update methods

Each block starts with loc_FN = loc_FP = 0; after the class loop the
substitution / deletion / insertion counters are updated.  On natural numbers
truncated subtraction coincides with np.maximum(0, a - b).  Looking up a
missing block index in the prediction dictionary raises a KeyError, modelled
by none; the lookup only happens when the class loop runs at least once. -/

/-- One iteration of the class loop of the averaged-location mode: the
prediction block lookup happens inside the loop body, so a missing block key
(none) aborts the first iteration with a KeyError. -/
noncomputable def classLoopStepLoc (T : ℝ) (gtB : Block)
    (predB? : Option PredBlock) (acc : SELDState × ℕ × ℕ) (c : ℕ) :
    Option (SELDState × ℕ × ℕ) :=
  match predB? with
  | none => none
  | some predB => classStepLoc T gtB predB c acc

/-- One iteration of the class loop of the averaged-spatial-error mode. -/
noncomputable def classLoopStepSpatial (T : ℝ) (gtB : Block)
    (predB? : Option PredBlock) (acc : SELDState × ℕ × ℕ) (c : ℕ) :
    Option (SELDState × ℕ × ℕ) :=
  match predB? with
  | none => none
  | some predB => classStepSpatial T gtB predB c acc

noncomputable def blockStepLoc (T : ℝ) (nb_classes : ℕ) (gtB : Block)
    (predB? : Option PredBlock) (s : SELDState) : Option SELDState :=
  match (List.range nb_classes).foldlM (classLoopStepLoc T gtB predB?) (s, 0, 0) with
  | none => none
  | some (s, locFN, locFP) =>
    some { s with S := s.S + min locFP locFN,
                  D := s.D + (locFN - locFP),
                  I := s.I + (locFP - locFN) }

noncomputable def blockStepSpatial (T : ℝ) (nb_classes : ℕ) (gtB : Block)
    (predB? : Option PredBlock) (s : SELDState) : Option SELDState :=
  match (List.range nb_classes).foldlM (classLoopStepSpatial T gtB predB?) (s, 0, 0) with
  | none => none
  | some (s, locFN, locFP) =>
    some { s with S := s.S + min locFP locFN,
                  D := s.D + (locFN - locFP),
                  I := s.I + (locFP - locFN) }

/-- update_average_location_in_segment_score: iterate the reference block
indices 0 .. len(gt) - 1. -/
noncomputable def update_average_location_in_segment_score (T : ℝ)
    (nb_classes : ℕ) (pred : List PredBlock) (gt : List Block)
    (s : SELDState) : Option SELDState :=
  (List.range gt.length).foldlM (fun s block_cnt =>
    blockStepLoc T nb_classes (gt.getD block_cnt emptyBlock)
      (pred.get? block_cnt) s) s

/-- update_average_spatial_error_in_segment_score. -/
noncomputable def update_average_spatial_error_in_segment_score (T : ℝ)
    (nb_classes : ℕ) (pred : List PredBlock) (gt : List Block)
    (s : SELDState) : Option SELDState :=
  (List.range gt.length).foldlM (fun s block_cnt =>
    blockStepSpatial T nb_classes (gt.getD block_cnt emptyBlock)
      (pred.get? block_cnt) s) s

/-- update_seld_scores: dispatch on the averaging flag. -/
noncomputable def update_seld_scores (is_avg_spatial_error : Bool) (T : ℝ)
    (nb_classes : ℕ) (pred : List PredBlock) (gt : List Block)
    (s : SELDState) : Option SELDState :=
  if is_avg_spatial_error then
    update_average_spatial_error_in_segment_score T nb_classes pred gt s
  else
    update_average_location_in_segment_score T nb_classes pred gt s

/-! ## Score reduction -/

/-- np.finfo(np.float).eps, the double-precision machine epsilon. -/
noncomputable def eps : ℝ := 2 ^ (-52 : ℤ)

structure Scores where
  ER_LD : ℝ
  F_LD : ℝ
  DE_CL : ℝ
  F_CL : ℝ

/-- compute_seld_scores: reduce the running statistics to the four reported
scores. -/
noncomputable def compute_seld_scores (s : SELDState) : Scores :=
  let ER := ((s.S : ℝ) + s.D + s.I) / ((s.Nref : ℝ) + eps)
  let prec := (s.TP : ℝ) / ((s.Nsys : ℝ) + eps)
  let rcall := (s.TP : ℝ) / ((s.Nref : ℝ) + eps)
  let F := 2 * prec * rcall / (prec + rcall + eps)
  let DE := s.total_DE / ((s.DE_TP : ℝ) + eps)
  let DE_prec := (s.DE_TP : ℝ) / ((s.Nsys : ℝ) + eps)
  let DE_recall := (s.DE_TP : ℝ) / ((s.Nref : ℝ) + eps)
  let DE_F := 2 * DE_prec * DE_recall / (DE_prec + DE_recall + eps)
  ⟨ER, F * 100, DE, DE_F * 100⟩

/-- The compute_seld_scores method call on the accumulator object: the method
body only reads the running statistics, so the post-call state is the
pre-call state and the returned value is the pure reduction. -/
noncomputable def compute_seld_scores_call (s : SELDState) : SELDState × Scores :=
  (s, compute_seld_scores s)

/-! ## Segment encoders (test_metrics.py)

segment_gt_labels expands interval ground-truth events into per-frame samples
split across segment boundaries; segment_pred_labels groups framewise
detections by segment and class.  Dictionaries keyed by the consecutive block
indices are modelled as lists; the inner dictionaries of the prediction
encoder keep Python insertion order and are modelled as association lists. -/

/-- One ground-truth event row, with the class label already mapped to its
dense index by the unique-classes mapping. -/
structure GtEvent where
  start : ℕ
  stop : ℕ
  cls : ℕ
  azi : ℝ
  ele : ℝ

/-- Python range(a, b). -/
def rangeList (a b : ℕ) : List ℕ := (List.range (b - a)).map (a + ·)

/-- int(np.ceil(a / float(b))) for b > 0. -/
def natCeilDiv (a b : ℕ) : ℕ := (a + b - 1) / b

/-- A track whose azimuth/elevation lists broadcast one direction over the
whole offset range (np.ones(len) times the scalar). -/
noncomputable def constTrack (inds : List ℕ) (azi ele : ℝ) : Track :=
  ⟨inds, List.replicate inds.length azi, List.replicate inds.length ele⟩

/-- Append a track to the list held by one class of a block. -/
def addTrack (bl : Block) (cls : ℕ) (t : Track) : Block :=
  fun c => if c = cls then bl c ++ [t] else bl c

/-- Append a track for a class into one block of the output structure.
In-range block indices are dictionary keys created up front; the embedding
leaves out-of-range writes out (the dictionary would raise there, which the
evaluation flow never exercises). -/
def appendTrack (blocks : List Block) (b cls : ℕ) (t : Track) : List Block :=
  blocks.set b (addTrack (blocks.getD b emptyBlock) cls t)

/-- The body of the event loop of segment_gt_labels. -/
noncomputable def processGtEvent (max_frames frames_seg : ℕ)
    (blocks : List Block) (ev : GtEvent) : List Block :=
  let first_block := ev.start / frames_seg
  let first_frame := ev.start % frames_seg
  let se_end := if max_frames ≤ ev.stop then max_frames - 1 else ev.stop
  let last_block := se_end / frames_seg
  let last_frame := se_end % frames_seg
  if last_block = first_block then
    let ind_list := rangeList first_frame last_frame
    if ind_list.length ≠ 0 then
      appendTrack blocks first_block ev.cls (constTrack ind_list ev.azi ev.ele)
    else blocks
  else
    let blocks := appendTrack blocks first_block ev.cls
      (constTrack (rangeList first_frame frames_seg) ev.azi ev.ele)
    let blocks := if last_frame ≠ 0 then
        appendTrack blocks last_block ev.cls
          (constTrack (rangeList 0 last_frame) ev.azi ev.ele)
      else blocks
    (List.range' (first_block + 1) (last_block - (first_block + 1))).foldl
      (fun bs bc => appendTrack bs bc ev.cls
        (constTrack (rangeList 0 frames_seg) ev.azi ev.ele)) blocks

/-- segment_gt_labels: ceil(max_frames / frames_seg) blocks, filled by the
event loop. -/
noncomputable def segment_gt_labels (events : List GtEvent)
    (max_frames frames_seg : ℕ) : List Block :=
  events.foldl (processGtEvent max_frames frames_seg)
    (List.replicate (natCeilDiv max_frames frames_seg) emptyBlock)

/-- Insert-or-modify on an association list, preserving Python dictionary
insertion order: a missing key is appended at the end holding f d, an
existing key has its value replaced by f of it. -/
def upsert {β : Type} (m : List (ℕ × β)) (k : ℕ) (d : β) (f : β → β) :
    List (ℕ × β) :=
  match m with
  | [] => [(k, f d)]
  | (k₀, v) :: rest =>
    if k₀ = k then (k₀, f v) :: rest else (k₀, v) :: upsert rest k d f

/-- The loc_dict collected for one segment of segment_pred_labels: class to
(within-block offset to detected (azimuth, elevation) pairs). -/
def collectLocDict (pred_dict : List (ℕ × List (ℕ × ℝ × ℝ)))
    (frame_cnt frames_seg : ℕ) : List (ℕ × List (ℕ × List (ℝ × ℝ))) :=
  (rangeList frame_cnt (frame_cnt + frames_seg)).foldl (fun loc audio_frame =>
    match pred_dict.lookup audio_frame with
    | none => loc
    | some values => values.foldl (fun loc v =>
        upsert loc v.1 [] (fun inner =>
          upsert inner (audio_frame - frame_cnt) [] (fun l => l ++ [(v.2.1, v.2.2)])))
        loc) []

/-- Python range(0, stop, step) for step > 0. -/
def rangeStep (stop step : ℕ) : List ℕ :=
  (List.range (natCeilDiv stop step)).map (· * step)

/-- Append a prediction track to the list held by one class of a block. -/
def addPredTrack (bl : PredBlock) (cls : ℕ) (t : PredTrack) : PredBlock :=
  fun c => if c = cls then bl c ++ [t] else bl c

/-- segment_pred_labels: floor(max_frames / frames_seg) blocks keyed up
front, but the frame loop steps through ceil(max_frames / frames_seg)
segment starts; writing a class of a trailing partial segment hits a missing
dictionary key (none). -/
def segment_pred_labels (pred_dict : List (ℕ × List (ℕ × ℝ × ℝ)))
    (max_frames frames_seg : ℕ) : Option (List PredBlock) :=
  (rangeStep max_frames frames_seg).foldlM (fun out frame_cnt =>
    let block_cnt := frame_cnt / frames_seg
    let loc := collectLocDict pred_dict frame_cnt frames_seg
    loc.foldlM (fun out cls_entry =>
      if block_cnt < out.length then
        some (out.set block_cnt
          (addPredTrack (out.getD block_cnt emptyPredBlock) cls_entry.1
            ⟨cls_entry.2.map (·.1), cls_entry.2.map (·.2)⟩))
      else none) out)
    (List.replicate (max_frames / frames_seg) emptyPredBlock)

/-! ## The averaged-location representative distance as the specification
words it (for comparison with the implementation) -/

/-- Follows the specification text for the AVERAGE_LOCATION representative
distance: convert every reference direction sample and every prediction
direction sample (azimuth, elevation in degrees) to unit cartesian vectors,
average each set componentwise, convert each mean back to azimuth/elevation
and take the great-circle angular distance between the two mean directions. -/
noncomputable def specAvgLocationDistance (refDirs predDirs : List (ℝ × ℝ)) : ℝ :=
  let toVec := fun (d : ℝ × ℝ) =>
    sph2cart (d.1 * Real.pi / 180) (d.2 * Real.pi / 180) 1
  let rv := refDirs.map toVec
  let pv := predDirs.map toVec
  let rm := cart2sph (npMean (rv.map (·.1))) (npMean (rv.map (·.2.1)))
    (npMean (rv.map (·.2.2)))
  let pm := cart2sph (npMean (pv.map (·.1))) (npMean (pv.map (·.2.1)))
    (npMean (pv.map (·.2.2)))
  distance_between_spherical_coordinates_rad rm.1 rm.2.1 pm.1 pm.2.1

/-! ## Claim theorems -/

/-- Claim C1, counterexample: the constructor stores int(seg/hop), which
truncates; at seg_length_s = 1.9 and hop_length_s = 1 the stored block size
is 1 while rounding the ratio to the nearest integer gives 2, so the block
size does not equal round(seg_length_s / hop_length_s). -/
theorem c1_round_counterexample :
    block_size (19/10) 1 = 1 ∧ round ((19/10 : ℚ) / 1) = 2 ∧
    block_size (19/10) 1 ≠ round ((19/10 : ℚ) / 1) := by
  refine ⟨?_, ?_, ?_⟩ <;> norm_num [block_size, pythonInt, round_eq]

/-- Claim C1 as amended: for positive construction parameters the block size
equals the ratio seg_length_s / hop_length_s truncated downward, i.e. the
unique integer k with k ≤ ratio < k + 1 (not the ratio rounded to nearest). -/
theorem c1_block_size_truncates (seg hop : ℚ) (h1 : 0 < seg) (h2 : 0 < hop) :
    (block_size seg hop : ℚ) ≤ seg / hop ∧ seg / hop < block_size seg hop + 1 := by
  have hq : 0 ≤ seg / hop := le_of_lt (div_pos h1 h2)
  unfold block_size pythonInt
  rw [if_pos hq]
  refine ⟨Int.floor_le _, ?_⟩
  exact_mod_cast Int.lt_floor_add_one (seg / hop)

/-- Witness for c1_block_size_truncates at the default parameters
seg_length_s = 1, hop_length_s = 0.02. -/
theorem c1_block_size_truncates_witness :
    (0:ℚ) < 1 ∧ (0:ℚ) < 1/50 ∧
    ((block_size 1 (1/50) : ℚ) ≤ (1:ℚ) / (1/50) ∧
      (1:ℚ) / (1/50) < (block_size 1 (1/50) : ℚ) + 1) :=
  ⟨by norm_num, by norm_num,
    c1_block_size_truncates 1 (1/50) (by norm_num) (by norm_num)⟩

/-- Claim C7: on the zero-initialized statistics, compute_seld_scores
returns ER_LD = 0, F_LD = 0, DE_CL = 0 and F_CL = 0; the epsilon added to
every denominator is positive, so no division by zero occurs. -/
theorem c7_degenerate_run_scores :
    compute_seld_scores initState = ⟨0, 0, 0, 0⟩ ∧ 0 < eps := by
  constructor
  · simp [compute_seld_scores, initState]
  · rw [eps]; positivity

/-- Claim C8: the compute_seld_scores call is a pure read: the post-call
state equals the pre-call state, a repeated call returns the same four
scores, and an update performed after the call behaves exactly as an update
performed on the state without the intervening call. -/
theorem c8_finalize_pure_read (s : SELDState) :
    (compute_seld_scores_call s).1 = s ∧
    (compute_seld_scores_call ((compute_seld_scores_call s).1)).2 =
      (compute_seld_scores_call s).2 ∧
    ∀ (flag : Bool) (T : ℝ) (nb_classes : ℕ) (pred : List PredBlock)
      (gt : List Block),
      update_seld_scores flag T nb_classes pred gt ((compute_seld_scores_call s).1) =
        update_seld_scores flag T nb_classes pred gt s :=
  ⟨rfl, rfl, fun _ _ _ _ _ => rfl⟩

/-! ## Helper lemmas -/

lemma foldl_fixed {α β : Type _} (f : β → α → β) :
    ∀ (l : List α), (∀ b, ∀ a ∈ l, f b a = b) → ∀ b, l.foldl f b = b := by
  intro l
  induction l with
  | nil => intro _ b; rfl
  | cons x xs ih =>
    intro h b
    rw [List.foldl_cons, h b x (List.mem_cons_self x xs)]
    exact ih (fun b a ha => h b a (List.mem_cons_of_mem x ha)) b

lemma snd_mem_of_mem_enumFrom {α : Type _} :
    ∀ (l : List α) (n : ℕ) (p : ℕ × α), p ∈ l.enumFrom n → p.2 ∈ l := by
  intro l
  induction l with
  | nil => intro n p h; cases h
  | cons x xs ih =>
    intro n p h
    rw [List.enumFrom_cons, List.mem_cons] at h
    rcases h with h | h
    · subst h; exact List.mem_cons_self x xs
    · exact List.mem_cons_of_mem x (ih (n + 1) p h)

/-- When no ground-truth offset occurs among the prediction offsets, the
matching loop accumulates nothing. -/
lemma spatialFold_no_match (gt_ind_list : List ℕ) (gt_azi gt_ele : List ℝ)
    (pred_ind_list : List ℕ) (pred_azi pred_ele : List ℝ)
    (h : ∀ f ∈ gt_ind_list, f ∉ pred_ind_list) :
    spatialFold gt_ind_list gt_azi gt_ele pred_ind_list pred_azi pred_ele = (0, 0) := by
  unfold spatialFold
  apply foldl_fixed
  intro b p hp
  have h2 : p.2 ∈ gt_ind_list := snd_mem_of_mem_enumFrom gt_ind_list 0 p hp
  rw [if_neg (h p.2 h2)]

/-- Claim C2: in the averaged-spatial-error mode, when a class is present in
both the reference and the prediction block but no within-block frame offset
is shared between the two tracks, the pair is counted as a false negative
(FN and the block-local loc_FN each grow by one) and total_DE and DE_TP are
left unchanged, for every doa threshold. -/
theorem c2_spatial_zero_overlap_is_fn (T : ℝ) (gtB : Block) (predB : PredBlock)
    (c : ℕ) (s : SELDState) (locFN locFP : ℕ) (gtT : Track) (gts : List Track)
    (predT : PredTrack) (preds : List PredTrack) (pred_dirs : List (ℝ × ℝ))
    (hg : gtB c = gtT :: gts) (hp : predB c = predT :: preds)
    (hsq : squeezeDirs predT.dirs = some pred_dirs)
    (hno : ∀ f ∈ gtT.frames, f ∉ predT.frames) :
    classStepSpatial T gtB predB c (s, locFN, locFP) =
      some ({ s with Nref := s.Nref + 1, Nsys := s.Nsys + 1, FN := s.FN + 1 },
        locFN + 1, locFP) := by
  have hfold : classSpatialFold gtT predT pred_dirs = (0, 0) := by
    unfold classSpatialFold
    exact spatialFold_no_match _ _ _ _ _ _ hno
  simp [classStepSpatial, hg, hp, hsq, hfold]

/-- Witness for c2_spatial_zero_overlap_is_fn: single reference offset 0,
single prediction offset 1, nothing shared. -/
theorem c2_witness :
    (∀ f ∈ ([0] : List ℕ), f ∉ ([1] : List ℕ)) ∧
    classStepSpatial 10 (fun _ => [⟨[0], [0], [0]⟩]) (fun _ => [⟨[1], [[(0, 0)]]⟩]) 0
      (initState, 0, 0) =
      some ({ initState with Nref := 1, Nsys := 1, FN := 1 }, 1, 0) := by
  refine ⟨by decide, ?_⟩
  exact c2_spatial_zero_overlap_is_fn 10 (fun _ => [⟨[0], [0], [0]⟩])
    (fun _ => [⟨[1], [[(0, 0)]]⟩]) 0 initState 0 0 ⟨[0], [0], [0]⟩ []
    ⟨[1], [[(0, 0)]]⟩ [] [(0, 0)] rfl rfl rfl (by decide)

/-- Claim C3: whenever a representative angular distance d is computed for a
(block, class) pair — in the averaged-location mode always when both sides
are present, in the averaged-spatial-error mode when the matching loop is not
empty — the pair is counted as TP exactly when d is at most the doa
threshold and otherwise as FN (together with the block-local loc_FN), while
total_DE grows by d and DE_TP by one identically in both outcomes. -/
theorem c3_threshold_lockstep :
    (∀ (T : ℝ) (gtB : Block) (predB : PredBlock) (c : ℕ) (s : SELDState)
        (locFN locFP : ℕ) (gtT : Track) (gts : List Track) (predT : PredTrack)
        (preds : List PredTrack) (pred_dirs : List (ℝ × ℝ)),
      gtB c = gtT :: gts → predB c = predT :: preds →
      squeezeDirs predT.dirs = some pred_dirs →
      classStepLoc T gtB predB c (s, locFN, locFP) =
        some ({ s with
          Nref := s.Nref + 1, Nsys := s.Nsys + 1,
          total_DE := s.total_DE + classLocDist gtT pred_dirs,
          DE_TP := s.DE_TP + 1,
          TP := s.TP + (if classLocDist gtT pred_dirs ≤ T then 1 else 0),
          FN := s.FN + (if classLocDist gtT pred_dirs ≤ T then 0 else 1) },
          locFN + (if classLocDist gtT pred_dirs ≤ T then 0 else 1), locFP)) ∧
    (∀ (T : ℝ) (gtB : Block) (predB : PredBlock) (c : ℕ) (s : SELDState)
        (locFN locFP : ℕ) (gtT : Track) (gts : List Track) (predT : PredTrack)
        (preds : List PredTrack) (pred_dirs : List (ℝ × ℝ)),
      gtB c = gtT :: gts → predB c = predT :: preds →
      squeezeDirs predT.dirs = some pred_dirs →
      ¬ ((classSpatialFold gtT predT pred_dirs).1 = 0 ∧
          (classSpatialFold gtT predT pred_dirs).2 = 0) →
      classStepSpatial T gtB predB c (s, locFN, locFP) =
        some ({ s with
          Nref := s.Nref + 1, Nsys := s.Nsys + 1,
          total_DE := s.total_DE + (classSpatialFold gtT predT pred_dirs).1 /
            ((classSpatialFold gtT predT pred_dirs).2 : ℝ),
          DE_TP := s.DE_TP + 1,
          TP := s.TP + (if (classSpatialFold gtT predT pred_dirs).1 /
            ((classSpatialFold gtT predT pred_dirs).2 : ℝ) ≤ T then 1 else 0),
          FN := s.FN + (if (classSpatialFold gtT predT pred_dirs).1 /
            ((classSpatialFold gtT predT pred_dirs).2 : ℝ) ≤ T then 0 else 1) },
          locFN + (if (classSpatialFold gtT predT pred_dirs).1 /
            ((classSpatialFold gtT predT pred_dirs).2 : ℝ) ≤ T then 0 else 1),
          locFP)) := by
  constructor
  · intro T gtB predB c s locFN locFP gtT gts predT preds pred_dirs hg hp hsq
    by_cases hle : classLocDist gtT pred_dirs ≤ T
    · simp [classStepLoc, hg, hp, hsq, hle]
    · simp [classStepLoc, hg, hp, hsq, hle]
  · intro T gtB predB c s locFN locFP gtT gts predT preds pred_dirs hg hp hsq hne
    by_cases hle : (classSpatialFold gtT predT pred_dirs).1 /
        ((classSpatialFold gtT predT pred_dirs).2 : ℝ) ≤ T
    · simp [classStepSpatial, hg, hp, hsq, hne, hle]
    · simp [classStepSpatial, hg, hp, hsq, hne, hle]

/-- Witness for c3_threshold_lockstep: a coincident single direction in each
mode at threshold 10. -/
theorem c3_witness :
    (squeezeDirs [[((0:ℝ), (0:ℝ))]] = some [(0, 0)]) ∧
    (¬ ((classSpatialFold ⟨[0], [0], [0]⟩ ⟨[0], [[(0, 0)]]⟩ [(0, 0)]).1 = 0 ∧
        (classSpatialFold ⟨[0], [0], [0]⟩ ⟨[0], [[(0, 0)]]⟩ [(0, 0)]).2 = 0)) ∧
    classStepLoc 10 (fun _ => [⟨[0], [0], [0]⟩]) (fun _ => [⟨[0], [[(0, 0)]]⟩]) 0
      (initState, 0, 0) =
      some ({ initState with
        Nref := 1, Nsys := 1,
        total_DE := initState.total_DE + classLocDist ⟨[0], [0], [0]⟩ [(0, 0)],
        DE_TP := 1,
        TP := initState.TP + (if classLocDist ⟨[0], [0], [0]⟩ [(0, 0)] ≤ 10 then 1 else 0),
        FN := initState.FN + (if classLocDist ⟨[0], [0], [0]⟩ [(0, 0)] ≤ 10 then 0 else 1) },
        0 + (if classLocDist ⟨[0], [0], [0]⟩ [(0, 0)] ≤ 10 then 0 else 1), 0) ∧
    classStepSpatial 10 (fun _ => [⟨[0], [0], [0]⟩]) (fun _ => [⟨[0], [[(0, 0)]]⟩]) 0
      (initState, 0, 0) =
      some ({ initState with
        Nref := 1, Nsys := 1,
        total_DE := initState.total_DE +
          (classSpatialFold ⟨[0], [0], [0]⟩ ⟨[0], [[(0, 0)]]⟩ [(0, 0)]).1 /
            ((classSpatialFold ⟨[0], [0], [0]⟩ ⟨[0], [[(0, 0)]]⟩ [(0, 0)]).2 : ℝ),
        DE_TP := 1,
        TP := initState.TP + (if (classSpatialFold ⟨[0], [0], [0]⟩ ⟨[0], [[(0, 0)]]⟩ [(0, 0)]).1 /
          ((classSpatialFold ⟨[0], [0], [0]⟩ ⟨[0], [[(0, 0)]]⟩ [(0, 0)]).2 : ℝ) ≤ 10 then 1 else 0),
        FN := initState.FN + (if (classSpatialFold ⟨[0], [0], [0]⟩ ⟨[0], [[(0, 0)]]⟩ [(0, 0)]).1 /
          ((classSpatialFold ⟨[0], [0], [0]⟩ ⟨[0], [[(0, 0)]]⟩ [(0, 0)]).2 : ℝ) ≤ 10 then 0 else 1) },
        0 + (if (classSpatialFold ⟨[0], [0], [0]⟩ ⟨[0], [[(0, 0)]]⟩ [(0, 0)]).1 /
          ((classSpatialFold ⟨[0], [0], [0]⟩ ⟨[0], [[(0, 0)]]⟩ [(0, 0)]).2 : ℝ) ≤ 10 then 0 else 1),
        0) := by
  have hne : ¬ ((classSpatialFold ⟨[0], [0], [0]⟩ ⟨[0], [[(0, 0)]]⟩ [(0, 0)]).1 = 0 ∧
      (classSpatialFold ⟨[0], [0], [0]⟩ ⟨[0], [[(0, 0)]]⟩ [(0, 0)]).2 = 0) := by
    intro hc
    exact absurd hc.2 (by decide)
  refine ⟨rfl, hne, ?_, ?_⟩
  · exact c3_threshold_lockstep.1 10 (fun _ => [⟨[0], [0], [0]⟩])
      (fun _ => [⟨[0], [[(0, 0)]]⟩]) 0 initState 0 0 ⟨[0], [0], [0]⟩ []
      ⟨[0], [[(0, 0)]]⟩ [] [(0, 0)] rfl rfl rfl
  · exact c3_threshold_lockstep.2 10 (fun _ => [⟨[0], [0], [0]⟩])
      (fun _ => [⟨[0], [[(0, 0)]]⟩]) 0 initState 0 0 ⟨[0], [0], [0]⟩ []
      ⟨[0], [[(0, 0)]]⟩ [] [(0, 0)] rfl rfl rfl hne

lemma zip_map_eq_zipWith {α β γ : Type _} (F : α → β → γ) :
    ∀ (l1 : List α) (l2 : List β),
      (l1.zip l2).map (fun p => F p.1 p.2) = List.zipWith F l1 l2 := by
  intro l1
  induction l1 with
  | nil => intro l2; rfl
  | cons x xs ih =>
    intro l2
    cases l2 with
    | nil => rfl
    | cons y ys => simp [ih]

lemma zipWith_map_both {α β γ δ ε : Type _} (F : γ → δ → ε) (f : α → γ) (g : β → δ) :
    ∀ (l1 : List α) (l2 : List β),
      List.zipWith F (l1.map f) (l2.map g) =
        List.zipWith (fun a b => F (f a) (g b)) l1 l2 := by
  intro l1
  induction l1 with
  | nil => intro l2; rfl
  | cons x xs ih =>
    intro l2
    cases l2 with
    | nil => rfl
    | cons y ys => simp [ih]

lemma zipWith_map_same {α β γ δ : Type _} (F : β → γ → δ) (f : α → β) (g : α → γ) :
    ∀ l : List α,
      List.zipWith F (l.map f) (l.map g) = l.map (fun v => F (f v) (g v)) := by
  intro l
  induction l with
  | nil => rfl
  | cons x xs ih => simp [ih]

/-- The representative distance of the averaged-location branch coincides
with the distance the specification describes on the zipped reference
direction samples. -/
lemma classLocDist_eq_spec (gtT : Track) (pred_dirs : List (ℝ × ℝ)) :
    classLocDist gtT pred_dirs =
      specAvgLocationDistance (gtT.azi.zip gtT.ele) pred_dirs := by
  have hgt : List.zipWith (fun a e => sph2cart a e 1)
      (gtT.azi.map (· * Real.pi / 180)) (gtT.ele.map (· * Real.pi / 180)) =
      (gtT.azi.zip gtT.ele).map
        (fun d => sph2cart (d.1 * Real.pi / 180) (d.2 * Real.pi / 180) 1) := by
    rw [zipWith_map_both, ← zip_map_eq_zipWith]
  have hpred : List.zipWith (fun a e => sph2cart a e 1)
      (pred_dirs.map (fun v => v.1 * Real.pi / 180))
      (pred_dirs.map (fun v => v.2 * Real.pi / 180)) =
      pred_dirs.map
        (fun d => sph2cart (d.1 * Real.pi / 180) (d.2 * Real.pi / 180) 1) := by
    rw [zipWith_map_same]
  simp only [classLocDist, specAvgLocationDistance, avgLocationDist]
  rw [hgt, hpred]

/-- Claim C4: in the averaged-location mode, whenever the class is present in
both the reference and the prediction block, the representative distance is
obtained by converting every reference direction sample and every prediction
direction sample to unit cartesian vectors, averaging each set componentwise,
converting each mean back to azimuth/elevation and taking the great-circle
distance of the two mean directions; exactly one distance enters total_DE and
DE_TP grows by exactly one. -/
theorem c4_location_mode_representative_distance (T : ℝ) (gtB : Block)
    (predB : PredBlock) (c : ℕ) (s : SELDState) (locFN locFP : ℕ) (gtT : Track)
    (gts : List Track) (predT : PredTrack) (preds : List PredTrack)
    (pred_dirs : List (ℝ × ℝ)) (hg : gtB c = gtT :: gts)
    (hp : predB c = predT :: preds)
    (hsq : squeezeDirs predT.dirs = some pred_dirs) :
    (classStepLoc T gtB predB c (s, locFN, locFP)).map
        (fun r => (r.1.total_DE, r.1.DE_TP)) =
      some (s.total_DE + specAvgLocationDistance (gtT.azi.zip gtT.ele) pred_dirs,
        s.DE_TP + 1) := by
  rw [← classLocDist_eq_spec]
  by_cases hle : classLocDist gtT pred_dirs ≤ T <;>
    simp [classStepLoc, hg, hp, hsq, hle]

/-- Witness for c4_location_mode_representative_distance: two reference
samples against one predicted direction. -/
theorem c4_witness :
    (squeezeDirs [[((50:ℝ), (60:ℝ))]] = some [(50, 60)]) ∧
    (classStepLoc 20 (fun _ => [⟨[0, 1], [10, 20], [30, 40]⟩])
        (fun _ => [⟨[0], [[(50, 60)]]⟩]) 0 (initState, 0, 0)).map
        (fun r => (r.1.total_DE, r.1.DE_TP)) =
      some (initState.total_DE +
        specAvgLocationDistance
          (([10, 20] : List ℝ).zip ([30, 40] : List ℝ)) [(50, 60)],
        initState.DE_TP + 1) :=
  ⟨rfl, c4_location_mode_representative_distance 20 (fun _ => [⟨[0, 1], [10, 20], [30, 40]⟩])
    (fun _ => [⟨[0], [[(50, 60)]]⟩]) 0 initState 0 0
    ⟨[0, 1], [10, 20], [30, 40]⟩ [] ⟨[0], [[(50, 60)]]⟩ [] [(50, 60)] rfl rfl rfl⟩


/-- Every successful per-class step of the averaged-location mode grows the
sum of the four confusion counters by exactly one. -/
lemma classStepLoc_confSum (T : ℝ) (gtB : Block) (predB : PredBlock) (c : ℕ)
    (acc r : SELDState × ℕ × ℕ) (h : classStepLoc T gtB predB c acc = some r) :
    confSum r.1 = confSum acc.1 + 1 := by
  rcases hg : gtB c with _ | ⟨gtT, gts⟩ <;> rcases hp : predB c with _ | ⟨predT, preds⟩
  · simp [classStepLoc, hg, hp] at h
    subst h; simp [confSum]; omega
  · simp [classStepLoc, hg, hp] at h
    subst h; simp [confSum]; omega
  · simp [classStepLoc, hg, hp] at h
    subst h; simp [confSum]; omega
  · rcases hsq : squeezeDirs predT.dirs with _ | pred_dirs
    · simp [classStepLoc, hg, hp, hsq] at h
    · by_cases hle : classLocDist gtT pred_dirs ≤ T <;>
        simp [classStepLoc, hg, hp, hsq, hle] at h <;> subst h <;>
        simp [confSum] <;> omega

/-- Every successful per-class step of the averaged-spatial-error mode grows
the sum of the four confusion counters by exactly one. -/
lemma classStepSpatial_confSum (T : ℝ) (gtB : Block) (predB : PredBlock) (c : ℕ)
    (acc r : SELDState × ℕ × ℕ) (h : classStepSpatial T gtB predB c acc = some r) :
    confSum r.1 = confSum acc.1 + 1 := by
  rcases hg : gtB c with _ | ⟨gtT, gts⟩ <;> rcases hp : predB c with _ | ⟨predT, preds⟩
  · simp [classStepSpatial, hg, hp] at h
    subst h; simp [confSum]; omega
  · simp [classStepSpatial, hg, hp] at h
    subst h; simp [confSum]; omega
  · simp [classStepSpatial, hg, hp] at h
    subst h; simp [confSum]; omega
  · rcases hsq : squeezeDirs predT.dirs with _ | pred_dirs
    · simp [classStepSpatial, hg, hp, hsq] at h
    · by_cases hz : ((classSpatialFold gtT predT pred_dirs).1 = 0 ∧
          (classSpatialFold gtT predT pred_dirs).2 = 0)
      · simp [classStepSpatial, hg, hp, hsq, hz] at h
        subst h; simp [confSum]; omega
      · by_cases hle : (classSpatialFold gtT predT pred_dirs).1 /
            ((classSpatialFold gtT predT pred_dirs).2 : ℝ) ≤ T <;>
          simp [classStepSpatial, hg, hp, hsq, hz, hle] at h <;> subst h <;>
          simp [confSum] <;> omega

/-- A foldlM over Option whose every successful step grows a measure by k
grows it by k times the list length. -/
lemma foldlM_measure {σ α : Type _} (meas : σ → ℕ) (k : ℕ)
    (step : σ → α → Option σ)
    (hstep : ∀ acc a r, step acc a = some r → meas r = meas acc + k) :
    ∀ (l : List α) (init r : σ), l.foldlM step init = some r →
      meas r = meas init + k * l.length := by
  intro l
  induction l with
  | nil =>
    intro init r h
    simp only [List.foldlM_nil, Option.pure_def, Option.some.injEq] at h
    subst h
    simp
  | cons x xs ih =>
    intro init r h
    rw [List.foldlM_cons] at h
    cases hx : step init x with
    | none => rw [hx] at h; cases h
    | some a =>
      rw [hx] at h
      simp only [Option.bind_eq_bind, Option.some_bind] at h
      calc meas r = meas a + k * xs.length := ih a r h
        _ = (meas init + k) + k * xs.length := by rw [hstep init x a hx]
        _ = meas init + k * (xs.length + 1) := by ring
        _ = meas init + k * (x :: xs).length := by rw [List.length_cons]

lemma blockStepLoc_confSum (T : ℝ) (nc : ℕ) (gtB : Block)
    (predB? : Option PredBlock) (s s' : SELDState)
    (h : blockStepLoc T nc gtB predB? s = some s') :
    confSum s' = confSum s + nc := by
  unfold blockStepLoc at h
  cases hf : (List.range nc).foldlM (classLoopStepLoc T gtB predB?)
      (s, (0:ℕ), (0:ℕ)) with
  | none => rw [hf] at h; cases h
  | some a =>
    rw [hf] at h
    obtain ⟨s₁, locFN, locFP⟩ := a
    cases h
    have hm := foldlM_measure (fun acc => confSum acc.1) 1
      (classLoopStepLoc T gtB predB?) ?_ (List.range nc) (s, 0, 0)
      (s₁, locFN, locFP) hf
    · simp only [List.length_range, one_mul] at hm
      simpa [confSum] using hm
    · intro acc c r hr
      cases predB? with
      | none => cases hr
      | some predB => exact classStepLoc_confSum T gtB predB c acc r hr

lemma blockStepSpatial_confSum (T : ℝ) (nc : ℕ) (gtB : Block)
    (predB? : Option PredBlock) (s s' : SELDState)
    (h : blockStepSpatial T nc gtB predB? s = some s') :
    confSum s' = confSum s + nc := by
  unfold blockStepSpatial at h
  cases hf : (List.range nc).foldlM (classLoopStepSpatial T gtB predB?)
      (s, (0:ℕ), (0:ℕ)) with
  | none => rw [hf] at h; cases h
  | some a =>
    rw [hf] at h
    obtain ⟨s₁, locFN, locFP⟩ := a
    cases h
    have hm := foldlM_measure (fun acc => confSum acc.1) 1
      (classLoopStepSpatial T gtB predB?) ?_ (List.range nc) (s, 0, 0)
      (s₁, locFN, locFP) hf
    · simp only [List.length_range, one_mul] at hm
      simpa [confSum] using hm
    · intro acc c r hr
      cases predB? with
      | none => cases hr
      | some predB => exact classStepSpatial_confSum T gtB predB c acc r hr

/-- Claim C5: every successful update classifies each (block, class) pair
into exactly one of TP, FN, FP, TN, so over the call the sum of the four
counters grows by nb_classes times the number of reference blocks, and over
any one block (in either averaging mode) it grows by nb_classes. -/
theorem c5_confusion_completeness :
    (∀ (flag : Bool) (T : ℝ) (nc : ℕ) (pred : List PredBlock) (gt : List Block)
        (s s' : SELDState), update_seld_scores flag T nc pred gt s = some s' →
        confSum s' = confSum s + nc * gt.length) ∧
    (∀ (T : ℝ) (nc : ℕ) (gtB : Block) (predB? : Option PredBlock)
        (s s' : SELDState), blockStepLoc T nc gtB predB? s = some s' →
        confSum s' = confSum s + nc) ∧
    (∀ (T : ℝ) (nc : ℕ) (gtB : Block) (predB? : Option PredBlock)
        (s s' : SELDState), blockStepSpatial T nc gtB predB? s = some s' →
        confSum s' = confSum s + nc) := by
  refine ⟨?_, blockStepLoc_confSum, blockStepSpatial_confSum⟩
  intro flag T nc pred gt s s' h
  cases flag with
  | false =>
    rw [update_seld_scores, if_neg (by simp)] at h
    unfold update_average_location_in_segment_score at h
    have hm := foldlM_measure confSum nc _ ?_ (List.range gt.length) s s' h
    · simpa [List.length_range] using hm
    · intro acc b r hr
      exact blockStepLoc_confSum T nc _ _ acc r hr
  | true =>
    rw [update_seld_scores, if_pos rfl] at h
    unfold update_average_spatial_error_in_segment_score at h
    have hm := foldlM_measure confSum nc _ ?_ (List.range gt.length) s s' h
    · simpa [List.length_range] using hm
    · intro acc b r hr
      exact blockStepSpatial_confSum T nc _ _ acc r hr

/-- Witness for c5_confusion_completeness: one block, one class, present in
the reference only. -/
theorem c5_witness :
    (update_seld_scores false 10 1 [emptyPredBlock]
        [fun _ => [⟨[0], [0], [0]⟩]] initState =
      some { initState with Nref := 1, FN := 1, D := 1 }) ∧
    confSum { initState with Nref := 1, FN := 1, D := 1 } =
      confSum initState + 1 * 1 ∧
    (blockStepLoc 10 1 (fun _ => [⟨[0], [0], [0]⟩]) (some emptyPredBlock) initState =
      some { initState with Nref := 1, FN := 1, D := 1 }) ∧
    confSum { initState with Nref := 1, FN := 1, D := 1 } =
      confSum initState + 1 ∧
    (blockStepSpatial 10 1 (fun _ => [⟨[0], [0], [0]⟩]) (some emptyPredBlock) initState =
      some { initState with Nref := 1, FN := 1, D := 1 }) ∧
    confSum { initState with Nref := 1, FN := 1, D := 1 } =
      confSum initState + 1 := by
  refine ⟨rfl, ?_, rfl, ?_, rfl, ?_⟩
  · exact c5_confusion_completeness.1 false 10 1 [emptyPredBlock]
      [fun _ => [⟨[0], [0], [0]⟩]] initState
      { initState with Nref := 1, FN := 1, D := 1 } rfl
  · exact c5_confusion_completeness.2.1 10 1 (fun _ => [⟨[0], [0], [0]⟩])
      (some emptyPredBlock) initState _ rfl
  · exact c5_confusion_completeness.2.2 10 1 (fun _ => [⟨[0], [0], [0]⟩])
      (some emptyPredBlock) initState _ rfl

/-- Claim C6: the angular distance vanishes on identical directions, is
symmetric in its two direction arguments, maps the antipodal pair
(0, 0) and (pi, 0) to 180 degrees, and always lies in [0, 180]. -/
theorem c6_distance_properties :
    (∀ az ele : ℝ, distance_between_spherical_coordinates_rad az ele az ele = 0) ∧
    (∀ az1 ele1 az2 ele2 : ℝ,
      distance_between_spherical_coordinates_rad az1 ele1 az2 ele2 =
        distance_between_spherical_coordinates_rad az2 ele2 az1 ele1) ∧
    distance_between_spherical_coordinates_rad 0 0 Real.pi 0 = 180 ∧
    (∀ az1 ele1 az2 ele2 : ℝ,
      0 ≤ distance_between_spherical_coordinates_rad az1 ele1 az2 ele2 ∧
      distance_between_spherical_coordinates_rad az1 ele1 az2 ele2 ≤ 180) := by
  refine ⟨?_, ?_, ?_, ?_⟩
  · intro az ele
    have h1 : Real.sin ele * Real.sin ele +
        Real.cos ele * Real.cos ele * Real.cos |az - az| = 1 := by
      rw [sub_self, abs_zero, Real.cos_zero, mul_one]
      have := Real.sin_sq_add_cos_sq ele
      nlinarith [this]
    simp only [distance_between_spherical_coordinates_rad]
    rw [h1]
    have h2 : min (max (1 : ℝ) (-1)) 1 = 1 := by norm_num
    rw [h2, Real.arccos_one]
    simp
  · intro az1 ele1 az2 ele2
    have h1 : Real.sin ele1 * Real.sin ele2 +
        Real.cos ele1 * Real.cos ele2 * Real.cos |az1 - az2| =
        Real.sin ele2 * Real.sin ele1 +
        Real.cos ele2 * Real.cos ele1 * Real.cos |az2 - az1| := by
      rw [abs_sub_comm]; ring
    simp only [distance_between_spherical_coordinates_rad]
    rw [h1]
  · have h1 : Real.sin 0 * Real.sin 0 +
        Real.cos 0 * Real.cos 0 * Real.cos |(0 : ℝ) - Real.pi| = -1 := by
      rw [zero_sub, abs_neg, abs_of_nonneg Real.pi_pos.le]
      simp [Real.cos_pi]
    simp only [distance_between_spherical_coordinates_rad]
    rw [h1]
    have h2 : min (max (-1 : ℝ) (-1)) 1 = -1 := by norm_num
    rw [h2, Real.arccos_neg_one]
    rw [mul_comm, mul_div_assoc, div_self Real.pi_ne_zero, mul_one]
  · intro az1 ele1 az2 ele2
    simp only [distance_between_spherical_coordinates_rad]
    constructor
    · apply div_nonneg _ Real.pi_pos.le
      exact mul_nonneg (Real.arccos_nonneg _) (by norm_num)
    · have h1 : Real.arccos (min (max (Real.sin ele1 * Real.sin ele2 +
          Real.cos ele1 * Real.cos ele2 * Real.cos |az1 - az2|) (-1)) 1) ≤ Real.pi :=
        Real.arccos_le_pi _
      calc Real.arccos (min (max (Real.sin ele1 * Real.sin ele2 +
              Real.cos ele1 * Real.cos ele2 * Real.cos |az1 - az2|) (-1)) 1) *
              180 / Real.pi ≤ Real.pi * 180 / Real.pi := by
            apply (div_le_div_iff_of_pos_right Real.pi_pos).mpr
            exact mul_le_mul_of_nonneg_right h1 (by norm_num)
        _ = 180 := by rw [mul_comm, mul_div_assoc, div_self Real.pi_ne_zero, mul_one]

/-- Claim C9, counterexample: the update never validates its input.  With
nb_classes = 11, a ground truth carrying an out-of-range class index 11
(outside 0..10) is accepted without any error: the call completes and
returns a state in which the malformed occurrence contributed to no
statistic (Nref stays 0 and all eleven in-range classes count as true
negatives), instead of failing fast with a domain error. -/
theorem c9_fails_fast_counterexample :
    update_seld_scores false 10 11 [emptyPredBlock]
        [fun c => if c = 11 then [⟨[0], [0], [0]⟩] else []] initState =
      some { initState with TN := 11 } := rfl

lemma foldlM_congr_mem {σ α : Type _} (f g : σ → α → Option σ) :
    ∀ (l : List α), (∀ acc a, a ∈ l → f acc a = g acc a) →
      ∀ init, l.foldlM f init = l.foldlM g init := by
  intro l
  induction l with
  | nil => intro _ _; rfl
  | cons x xs ih =>
    intro h init
    rw [List.foldlM_cons, List.foldlM_cons, h init x (List.mem_cons_self x xs)]
    cases hx : g init x with
    | none => rfl
    | some a =>
      simp only [Option.bind_eq_bind, Option.some_bind]
      exact ih (fun acc a ha => h acc a (List.mem_cons_of_mem x ha)) a

lemma classStepLoc_congr (T : ℝ) (gtB gtB' : Block) (predB : PredBlock) (c : ℕ)
    (acc : SELDState × ℕ × ℕ) (h : gtB c = gtB' c) :
    classStepLoc T gtB predB c acc = classStepLoc T gtB' predB c acc := by
  unfold classStepLoc
  rw [h]

lemma classStepSpatial_congr (T : ℝ) (gtB gtB' : Block) (predB : PredBlock) (c : ℕ)
    (acc : SELDState × ℕ × ℕ) (h : gtB c = gtB' c) :
    classStepSpatial T gtB predB c acc = classStepSpatial T gtB' predB c acc := by
  unfold classStepSpatial
  rw [h]

lemma blockStepLoc_congr (T : ℝ) (nc : ℕ) (gtB gtB' : Block)
    (predB? : Option PredBlock) (s : SELDState)
    (h : ∀ c, c < nc → gtB c = gtB' c) :
    blockStepLoc T nc gtB predB? s = blockStepLoc T nc gtB' predB? s := by
  unfold blockStepLoc
  rw [foldlM_congr_mem (classLoopStepLoc T gtB predB?)
    (classLoopStepLoc T gtB' predB?) (List.range nc) ?_ (s, 0, 0)]
  intro acc c hc
  rw [List.mem_range] at hc
  unfold classLoopStepLoc
  cases predB? with
  | none => rfl
  | some predB => exact classStepLoc_congr T gtB gtB' predB c acc (h c hc)

lemma blockStepSpatial_congr (T : ℝ) (nc : ℕ) (gtB gtB' : Block)
    (predB? : Option PredBlock) (s : SELDState)
    (h : ∀ c, c < nc → gtB c = gtB' c) :
    blockStepSpatial T nc gtB predB? s = blockStepSpatial T nc gtB' predB? s := by
  unfold blockStepSpatial
  rw [foldlM_congr_mem (classLoopStepSpatial T gtB predB?)
    (classLoopStepSpatial T gtB' predB?) (List.range nc) ?_ (s, 0, 0)]
  intro acc c hc
  rw [List.mem_range] at hc
  unfold classLoopStepSpatial
  cases predB? with
  | none => rfl
  | some predB => exact classStepSpatial_congr T gtB gtB' predB c acc (h c hc)

/-- Claim C9 as amended: the update performs no input validation at all;
its result depends only on the class indices 0..nb_classes-1 of the ground
truth, so occurrences filed under any other class index are silently
ignored rather than rejected with a domain error. -/
theorem c9_no_validation (flag : Bool) (T : ℝ) (nc : ℕ) (pred : List PredBlock)
    (gt₁ gt₂ : List Block) (s : SELDState)
    (hlen : gt₁.length = gt₂.length)
    (hcls : ∀ b c, c < nc → (gt₁.getD b emptyBlock) c = (gt₂.getD b emptyBlock) c) :
    update_seld_scores flag T nc pred gt₁ s = update_seld_scores flag T nc pred gt₂ s := by
  cases flag with
  | false =>
    simp only [update_seld_scores, Bool.false_eq_true, if_false]
    unfold update_average_location_in_segment_score
    rw [hlen]
    apply foldlM_congr_mem
    intro acc b _
    exact blockStepLoc_congr T nc _ _ (pred.get? b) acc (fun c hc => hcls b c hc)
  | true =>
    simp only [update_seld_scores, if_true]
    unfold update_average_spatial_error_in_segment_score
    rw [hlen]
    apply foldlM_congr_mem
    intro acc b _
    exact blockStepSpatial_congr T nc _ _ (pred.get? b) acc (fun c hc => hcls b c hc)

/-- Witness for c9_no_validation: a ground truth polluted with class index
11 behaves exactly like the clean empty ground truth when nb_classes = 11. -/
theorem c9_witness :
    (([fun c => if c = 11 then [(⟨[0], [0], [0]⟩ : Track)] else []] : List Block).length
      = ([emptyBlock] : List Block).length) ∧
    (∀ b c, c < 11 →
      ((([fun c => if c = 11 then [(⟨[0], [0], [0]⟩ : Track)] else []] :
          List Block).getD b emptyBlock) c =
        ((([emptyBlock] : List Block).getD b emptyBlock) c))) ∧
    update_seld_scores false 10 11 [emptyPredBlock]
        [fun c => if c = 11 then [⟨[0], [0], [0]⟩] else []] initState =
      update_seld_scores false 10 11 [emptyPredBlock] [emptyBlock] initState := by
  have hcls : ∀ b c, c < 11 →
      ((([fun c => if c = 11 then [(⟨[0], [0], [0]⟩ : Track)] else []] :
          List Block).getD b emptyBlock) c =
        ((([emptyBlock] : List Block).getD b emptyBlock) c)) := by
    intro b c hc
    cases b with
    | zero =>
      show (if c = 11 then [(⟨[0], [0], [0]⟩ : Track)] else []) = emptyBlock c
      rw [if_neg (by omega : ¬ c = 11)]
      rfl
    | succ b => rfl
  exact ⟨rfl, hcls, c9_no_validation false 10 11 [emptyPredBlock] _ _ initState rfl hcls⟩

/-! ## Lemmas for the block-count asymmetry of the two encoders -/

lemma foldl_len {α : Type _} (f : List Block → α → List Block)
    (hf : ∀ bs a, (f bs a).length = bs.length) :
    ∀ (l : List α) (bs : List Block), (l.foldl f bs).length = bs.length := by
  intro l
  induction l with
  | nil => intro bs; rfl
  | cons x xs ih =>
    intro bs
    rw [List.foldl_cons, ih, hf]

lemma appendTrack_length (blocks : List Block) (b cls : ℕ) (t : Track) :
    (appendTrack blocks b cls t).length = blocks.length := by
  unfold appendTrack
  exact List.length_set blocks b _

lemma processGtEvent_length (mf fs : ℕ) (blocks : List Block) (ev : GtEvent) :
    (processGtEvent mf fs blocks ev).length = blocks.length := by
  unfold processGtEvent
  dsimp only
  repeat' split
  all_goals
    simp only [appendTrack_length,
      foldl_len (fun bs bc => appendTrack bs bc ev.cls
          (constTrack (rangeList 0 fs) ev.azi ev.ele))
        (fun bs a => appendTrack_length bs a ev.cls
          (constTrack (rangeList 0 fs) ev.azi ev.ele))]

/-- The reference encoder always produces ceil(max_frames / frames_seg)
blocks. -/
lemma segment_gt_labels_length (events : List GtEvent) (mf fs : ℕ) :
    (segment_gt_labels events mf fs).length = natCeilDiv mf fs := by
  unfold segment_gt_labels
  rw [foldl_len _ (processGtEvent_length mf fs), List.length_replicate]

/-- The prediction encoder, when it completes, produces
floor(max_frames / frames_seg) blocks. -/
lemma segment_pred_labels_length (pred_dict : List (ℕ × List (ℕ × ℝ × ℝ)))
    (mf fs : ℕ) (out : List PredBlock)
    (h : segment_pred_labels pred_dict mf fs = some out) :
    out.length = mf / fs := by
  unfold segment_pred_labels at h
  have hm := foldlM_measure List.length 0 _ ?_ (rangeStep mf fs)
    (List.replicate (mf / fs) emptyPredBlock) out h
  · simpa [List.length_replicate] using hm
  · intro acc frame_cnt r hr
    have hm2 := foldlM_measure List.length 0 _ ?_
      (collectLocDict pred_dict frame_cnt fs) acc r hr
    · simpa using hm2
    · intro acc2 cls_entry r2 hr2
      split at hr2
      · cases hr2
        simp [List.length_set]
      · cases hr2

lemma floor_lt_ceil_of_not_dvd (mf fs : ℕ) (h1 : 0 < fs) (h2 : ¬ fs ∣ mf) :
    mf / fs < natCeilDiv mf fs := by
  unfold natCeilDiv
  have hr : mf % fs ≠ 0 := fun h => h2 (Nat.dvd_of_mod_eq_zero h)
  have h3 : mf / fs + 1 ≤ (mf + fs - 1) / fs := by
    rw [Nat.le_div_iff_mul_le h1]
    have h4 := Nat.div_add_mod mf fs
    have h5 : mf % fs < fs := Nat.mod_lt _ h1
    have h6 : 1 ≤ mf % fs := Nat.one_le_iff_ne_zero.mpr hr
    have hexp : (mf / fs + 1) * fs = fs * (mf / fs) + fs := by ring
    rw [hexp]
    generalize fs * (mf / fs) = A at h4 ⊢
    generalize mf % fs = r at h4 h5 h6
    omega
  omega

lemma foldlM_none_of_mem {σ α : Type _} (step : σ → α → Option σ) (x : α)
    (hx : ∀ acc, step acc x = none) :
    ∀ (l : List α), x ∈ l → ∀ init, l.foldlM step init = none := by
  intro l
  induction l with
  | nil => intro h; cases h
  | cons y ys ih =>
    intro h init
    rw [List.foldlM_cons]
    rcases List.mem_cons.mp h with h | h
    · subst h; rw [hx init]; rfl
    · cases hy : step init y with
      | none => rfl
      | some a =>
        simp only [Option.bind_eq_bind, Option.some_bind]
        exact ih h a

/-- A missing prediction block key aborts the block as soon as the class
loop runs at least once. -/
lemma blockStepLoc_none (T : ℝ) (nc : ℕ) (hnc : 1 ≤ nc) (gtB : Block)
    (s : SELDState) : blockStepLoc T nc gtB none s = none := by
  unfold blockStepLoc
  have h : (List.range nc).foldlM (classLoopStepLoc T gtB none) (s, 0, 0) = none :=
    foldlM_none_of_mem _ 0 (fun _ => rfl) _ (List.mem_range.mpr hnc) _
  rw [h]

lemma blockStepSpatial_none (T : ℝ) (nc : ℕ) (hnc : 1 ≤ nc) (gtB : Block)
    (s : SELDState) : blockStepSpatial T nc gtB none s = none := by
  unfold blockStepSpatial
  have h : (List.range nc).foldlM (classLoopStepSpatial T gtB none) (s, 0, 0) = none :=
    foldlM_none_of_mem _ 0 (fun _ => rfl) _ (List.mem_range.mpr hnc) _
  rw [h]

/-- With fewer prediction blocks than reference blocks the update raises the
missing-key error on the first reference block index beyond the prediction
blocks. -/
lemma update_seld_scores_none (flag : Bool) (T : ℝ) (nc : ℕ) (hnc : 1 ≤ nc)
    (pred : List PredBlock) (gt : List Block) (hlt : pred.length < gt.length)
    (s : SELDState) : update_seld_scores flag T nc pred gt s = none := by
  have hget : pred.get? pred.length = none := by
    rw [List.get?_eq_none]
  cases flag with
  | false =>
    simp only [update_seld_scores, Bool.false_eq_true, if_false]
    unfold update_average_location_in_segment_score
    apply foldlM_none_of_mem _ pred.length ?_ _ (List.mem_range.mpr hlt)
    intro acc
    rw [hget]
    exact blockStepLoc_none T nc hnc _ acc
  | true =>
    simp only [update_seld_scores, if_true]
    unfold update_average_spatial_error_in_segment_score
    apply foldlM_none_of_mem _ pred.length ?_ _ (List.mem_range.mpr hlt)
    intro acc
    rw [hget]
    exact blockStepSpatial_none T nc hnc _ acc

/-- Claim C10: when max_frames is not a multiple of frames_seg, the
reference encoder produces ceil(max_frames/frames_seg) block keys while the
prediction encoder produces only floor(max_frames/frames_seg); updating with
the two encoder outputs iterates over the reference block count, looks the
final reference block up in the prediction structure, misses, and the call
fails instead of completing. -/
theorem c10_block_count_mismatch (events : List GtEvent)
    (pred_dict : List (ℕ × List (ℕ × ℝ × ℝ))) (max_frames frames_seg nc : ℕ)
    (flag : Bool) (T : ℝ) (s : SELDState) (predBlocks : List PredBlock)
    (hfs : 0 < frames_seg) (hnd : ¬ frames_seg ∣ max_frames) (hnc : 1 ≤ nc)
    (hpred : segment_pred_labels pred_dict max_frames frames_seg = some predBlocks) :
    (segment_gt_labels events max_frames frames_seg).length =
      natCeilDiv max_frames frames_seg ∧
    predBlocks.length = max_frames / frames_seg ∧
    max_frames / frames_seg < natCeilDiv max_frames frames_seg ∧
    update_seld_scores flag T nc predBlocks
      (segment_gt_labels events max_frames frames_seg) s = none := by
  have hgt := segment_gt_labels_length events max_frames frames_seg
  have hpl := segment_pred_labels_length pred_dict max_frames frames_seg predBlocks hpred
  have hlt := floor_lt_ceil_of_not_dvd max_frames frames_seg hfs hnd
  refine ⟨hgt, hpl, hlt, ?_⟩
  apply update_seld_scores_none flag T nc hnc
  rw [hpl, hgt]
  exact hlt

/-- Witness for c10_block_count_mismatch: three frames with two-frame
segments give two reference blocks and one prediction block, and the update
fails. -/
theorem c10_witness :
    0 < 2 ∧ ¬ (2 ∣ 3) ∧ 1 ≤ 1 ∧
    (segment_pred_labels [] 3 2 = some (List.replicate 1 emptyPredBlock)) ∧
    ((segment_gt_labels [] 3 2).length = natCeilDiv 3 2 ∧
      (List.replicate 1 emptyPredBlock).length = 3 / 2 ∧
      3 / 2 < natCeilDiv 3 2 ∧
      update_seld_scores false 10 1 (List.replicate 1 emptyPredBlock)
        (segment_gt_labels [] 3 2) initState = none) :=
  ⟨by decide, by decide, by decide, rfl,
    c10_block_count_mismatch [] [] 3 2 1 false 10 initState
      (List.replicate 1 emptyPredBlock) (by decide) (by decide) (by decide) rfl⟩
